import Mathlib

/-!
Verification of the voice-expense application's own logic, shallowly embedded
from the TypeScript source.  Pure functions of the app (JSON extraction from a
chat-completion response, date-string coercion, amount sanitisation, CSV
generation, month/year grouping) become Lean functions; each UI event handler
becomes a pure function from its inputs (form state, authentication result,
database reply) to an outcome record listing its observable effects.

Host-level behaviour that the code calls into is modelled explicitly:
  * `JSON.parse` is an arbitrary parameter `parse : String -> Option α`
    (the app makes no use of JSON semantics beyond success/failure and the
    parsed value);
  * a JS `Date` is an instant counted in minutes since the Unix epoch;
    `new Date(string)` is the `jsParse` field of a `JsEnv`, the device's
    time-zone offset (local minus UTC, in minutes) is its `tzOffset`;
  * the proleptic Gregorian calendar used by `toISOString` is implemented
    by explicit year/month iteration;
  * a JS number arising from `parseFloat` on digit/dot text is a decimal
    `JsNum` (integer numerator over a power of ten).
-/

/-! ### Character constants (written via code points) -/

def lbrace : Char := Char.ofNat 123

def rbrace : Char := Char.ofNat 125

def btick : Char := Char.ofNat 96

/-! ### The JSON-extraction waterfall of `categorizeText` (utils/openai.ts)

The source tries `content.match(/(three backticks)(?:json)?\s*(\{[\s\S]*\})\s*(three backticks)/)`
first, then `content.match(/(\{[\s\S]*\})/)`, takes capture group 1 (or, when
both fail, the whole content), and runs `JSON.parse` on it; a parse failure
returns the raw content string. -/

/-- The characters of the regex class `\s` that can occur in chat responses. -/
def isJsWs (c : Char) : Bool :=
  c = ' ' || c = '\t' || c = '\n' || c = '\r' || c = Char.ofNat 11 || c = Char.ofNat 12

def skipWs (cs : List Char) : List Char := cs.dropWhile isJsWs

/-- Does the text start with a three-backtick fence? -/
def startsWithTicks (cs : List Char) : Bool :=
  match cs with
  | a :: b :: c :: _ => a = btick && b = btick && c = btick
  | _ => false

def dropTicks (cs : List Char) : Option (List Char) :=
  match cs with
  | a :: b :: c :: rest => if a = btick && b = btick && c = btick then some rest else none
  | _ => none

/-- The optional literal `json` after the opening fence. -/
def dropJsonWord (cs : List Char) : Option (List Char) :=
  match cs with
  | 'j' :: 's' :: 'o' :: 'n' :: rest => some rest
  | _ => none

/-- Greedy closing search for `[\s\S]*\}` followed by `\s*` and a fence:
returns the characters before the chosen (rightmost viable) closing brace,
and the text after it. -/
def greedyClose : List Char → Option (List Char × List Char)
  | [] => none
  | c :: rest =>
    match greedyClose rest with
    | some (ins, aft) => some (c :: ins, aft)
    | none =>
      if c = rbrace && startsWithTicks (skipWs rest) then some ([], rest) else none

/-- After the fence (and optional `json`): `\s*` then the braced capture. -/
def fenceBody (v : List Char) : Option (List Char) :=
  match skipWs v with
  | c :: u => if c = lbrace then (greedyClose u).map (fun p => lbrace :: p.1 ++ [rbrace]) else none
  | [] => none

/-- Try the fenced pattern anchored at the start of `cs`
(with the greedy `(?:json)?` alternative first). -/
def fenceAt (cs : List Char) : Option (List Char) :=
  match dropTicks cs with
  | none => none
  | some v =>
    match dropJsonWord v with
    | some v2 => (fenceBody v2).orElse (fun _ => fenceBody v)
    | none => fenceBody v

/-- Leftmost match of the fenced pattern (JS regex start-position scan). -/
def fenceSearch : List Char → Option (List Char)
  | [] => none
  | c :: rest => (fenceAt (c :: rest)).orElse (fun _ => fenceSearch rest)

/-- Capture group 1 of the code-fence regex, if it matches. -/
def fenceMatch (s : String) : Option String :=
  (fenceSearch s.data).map (fun cs => ⟨cs⟩)

/-- Capture group 1 of `/(\{[\s\S]*\})/`: from the first opening brace to the
last closing brace, provided the latter comes after the former. -/
def braceMatch (s : String) : Option String :=
  let cs := s.data
  match cs.findIdx? (fun c => c = lbrace) with
  | none => none
  | some i =>
    match cs.reverse.findIdx? (fun c => c = rbrace) with
    | none => none
    | some jr =>
      let j := cs.length - 1 - jr
      if i < j then some ⟨(cs.drop i).take (j - i + 1)⟩ else none

/-- `const jsonString = jsonMatch ? jsonMatch[1] : content` with the
fence regex tried before the brace regex. -/
def extractCandidate (content : String) : String :=
  match fenceMatch content with
  | some cap => cap
  | none =>
    match braceMatch content with
    | some cap => cap
    | none => content

/-- The response-content handling of `categorizeText`: parse the extracted
candidate, and on parse failure return the raw content. `parse` stands for
the host's `JSON.parse` (`none` = exception). -/
def categorizeContent {α : Type} (parse : String → Option α) (content : String) : α ⊕ String :=
  match parse (extractCandidate content) with
  | some v => Sum.inl v
  | none => Sum.inr content

/-! ### JS dates

An instant is counted in minutes since the Unix epoch.  The proleptic
Gregorian calendar of `Date#toISOString` is implemented by explicit year and
month iteration; years before 0000 or at/after 10000 are outside the model
(the claims that use the calendar restrict to the four-digit era, which is
also where `toISOString` prints `YYYY-MM-DD`). -/

def isLeap (y : Nat) : Bool := (y % 4 = 0 && y % 100 != 0) || y % 400 = 0

def daysInYear (y : Nat) : Nat := if isLeap y then 366 else 365

def monthLengths (leap : Bool) : List Nat :=
  [31, if leap then 29 else 28, 31, 30, 31, 30, 31, 31, 30, 31, 30, 31]

/-- Walk whole years upward from `y` until the remaining day count fits. -/
def yearFromDays : Nat → Nat → Nat → Nat × Nat
  | 0, y, r => (y, r)
  | fuel + 1, y, r =>
    if r < daysInYear y then (y, r) else yearFromDays fuel (y + 1) (r - daysInYear y)

/-- Total days in the years `0, 1, ..., k - 1` of a 400-year Gregorian cycle
(the leap pattern of year `400 * era + k` only depends on `k`). -/
def yearsInEra : Nat → Nat
  | 0 => 0
  | k + 1 => yearsInEra k + daysInYear k

/-- Walk the month-length table; returns a 1-based month and 0-based day. -/
def monthFromDoy : List Nat → Nat → Nat × Nat
  | [], r => (1, r)
  | len :: rest, r =>
    if r < len then (1, r)
    else
      let p := monthFromDoy rest (r - len)
      (p.1 + 1, p.2)

/-- Calendar date (year, month, day) of a day number (days since the epoch):
split off 400-year eras of 146097 days, then iterate years and months. -/
def daysToCivil (z : Int) : Int × Nat × Nat :=
  let z0 := z + 719528
  let era := Int.ediv z0 146097
  let rem := (Int.emod z0 146097).toNat
  let yd := yearFromDays 400 0 rem
  let md := monthFromDoy (monthLengths (isLeap yd.1)) yd.2
  (400 * era + yd.1, md.1, md.2 + 1)

def monthDaysBefore (leap : Bool) (m : Nat) : Nat :=
  ((monthLengths leap).take (m - 1)).sum

/-- Day number (days since the epoch) of a calendar date. -/
def civilToDays (y m d : Nat) : Int :=
  (146097 * (y / 400) + yearsInEra (y % 400) + monthDaysBefore (isLeap y) m + (d - 1) : Int)
    - 719528

def digitChar (n : Nat) : Char := Char.ofNat (48 + n % 10)

def pad4 (n : Nat) : List Char :=
  [digitChar (n / 1000), digitChar (n / 100), digitChar (n / 10), digitChar n]

def pad2 (n : Nat) : List Char := [digitChar (n / 10), digitChar n]

/-- `YYYY-MM-DD` rendering of a calendar date (four-digit-era years). -/
def isoOfCivil (y : Int) (m d : Nat) : String :=
  ⟨pad4 y.toNat ++ '-' :: (pad2 m ++ '-' :: pad2 d)⟩

/-- `date.toISOString().split('T')[0]`: the UTC calendar date of an instant. -/
def isoDatePart (t : Int) : String :=
  let c := daysToCivil (Int.ediv t 1440)
  isoOfCivil c.1 c.2.1 c.2.2

/-- Is a string a well-formed `YYYY-MM-DD` date? -/
def wellFormedIso (s : String) : Bool :=
  match s.data with
  | [a, b, c, d, h1, e, f, h2, g, h] =>
    a.isDigit && b.isDigit && c.isDigit && d.isDigit && h1 = '-' &&
      e.isDigit && f.isDigit && h2 = '-' && g.isDigit && h.isDigit
  | _ => false

/-- The host facts a screen's date handling depends on: the current instant,
the device's time-zone offset (local minus UTC, minutes), and the behaviour
of `new Date(string)` (`none` = an invalid date, i.e. `NaN`). -/
structure JsEnv where
  now : Int
  tzOffset : Int
  jsParse : String → Option Int

/-- `parseDateString` as written identically in transcription.tsx,
edit-expense.tsx and the add-expense screen: null/empty input or an
unparseable string falls back to the current date. -/
def parseDateString (env : JsEnv) (dateString : Option String) : Int :=
  match dateString with
  | none => env.now
  | some s => if s = "" then env.now else (env.jsParse s).getD env.now

/-- `new Date("MMM DD, YYYY")` parses date-only text as LOCAL midnight:
the resulting instant is local midnight of the given calendar date shifted
out of the device's offset. -/
def jsLocalMidnight (tz : Int) (y m d : Nat) : Int := 1440 * civilToDays y m d - tz

/-! ### JS numbers from amount fields

`parseFloat(text.replace(/[^0-9.]/g, '')) || 0` only ever sees digit/dot
text, whose value is an exact decimal: a `JsNum` is `num / 10 ^ scale`.
Order against 0 is decided by the numerator's sign. -/

structure JsNum where
  num : Int
  scale : Nat
deriving DecidableEq

def digitsToNat (cs : List Char) : Nat := cs.foldl (fun a c => 10 * a + (c.toNat - 48)) 0

/-- `text.replace(/[^0-9.]/g, '')`. -/
def stripAmountChars (s : String) : String := ⟨s.data.filter (fun c => c.isDigit || c = '.')⟩

/-- `parseFloat` on digit/dot text: longest numeric head, `none` = `NaN`. -/
def jsParseFloat (s : String) : Option JsNum :=
  let cs := s.data
  let ip := cs.takeWhile Char.isDigit
  let rest := cs.dropWhile Char.isDigit
  match rest with
  | c :: rest2 =>
    if c = '.' then
      let fp := rest2.takeWhile Char.isDigit
      if ip.isEmpty && fp.isEmpty then none
      else some ⟨(digitsToNat ip * 10 ^ fp.length + digitsToNat fp : Nat), fp.length⟩
    else if ip.isEmpty then none else some ⟨(digitsToNat ip : Nat), 0⟩
  | [] => if ip.isEmpty then none else some ⟨(digitsToNat ip : Nat), 0⟩

/-- `parseFloat(text.replace(/[^0-9.]/g, '')) || 0` (`NaN` and `0` are falsy). -/
def sanitizeAmount (s : String) : JsNum :=
  match jsParseFloat (stripAmountChars s) with
  | none => ⟨0, 0⟩
  | some v => if v.num = 0 then ⟨0, 0⟩ else v

/-! ### The data model -/

/-- `ExpenseData` of utils/openai.ts (the categorized fields). -/
structure ExpenseData where
  amount : Option JsNum
  date : Option String
  memo : String
  category : String
deriving DecidableEq

/-- The authenticated user as the screens read it from `auth.getUser()`. -/
structure AuthUser where
  id : String
  email : Option String
deriving DecidableEq

/-- A row inserted into the `notes` table. -/
structure InsertRow where
  user_id : String
  email : String
  amount : JsNum
  date_of_transaction : String
  description : Option String
  category : Option String
  transcript : Option String
deriving DecidableEq

/-- The column values of the edit screen's `update`. -/
structure UpdateVals where
  amount : JsNum
  date_of_transaction : String
  description : Option String
  category : Option String
deriving DecidableEq

/-- A `notes` row as fetched (the `Note` interface of the home screen). -/
structure Note where
  id : String
  user_id : String
  email : String
  amount : Int
  date_of_transaction : String
  description : Option String
  category : Option String
  transcript : Option String
  created_at : String
deriving DecidableEq

/-- `s || null`. -/
def jsOrNull (s : String) : Option String := if s = "" then none else some s

/-- `a || b` on a nullable string (empty strings are falsy). -/
def jsStrOr (a : Option String) (b : String) : String :=
  match a with
  | none => b
  | some s => if s = "" then b else s

/-! ### `handleCategorize` result handling (app/transcription.tsx) -/

def jsTrim (s : String) : String :=
  ⟨((s.data.dropWhile isJsWs).reverse.dropWhile isJsWs).reverse⟩

/-- `!date || date === 'null' || date.trim() === ''`. -/
def dateMissing (d : Option String) : Bool :=
  match d with
  | none => true
  | some s => s = "null" || jsTrim s = ""

/-- What `handleCategorize` stores as the confirmation-screen form state,
given the transcript, today's display date and `categorizeText`'s result
(`Sum.inr` = the raw response string on parse failure). -/
def handleCategorizeResult (text today : String) (result : ExpenseData ⊕ String) : ExpenseData :=
  match result with
  | Sum.inl ed => if dateMissing ed.date then { ed with date := some today } else ed
  | Sum.inr s => { amount := some ⟨0, 0⟩, date := some today, memo := text, category := s }

/-! ### The rows the save paths write -/

/-- The `insert` payload of transcription.tsx `handleSave`
(amount is `expenseData.amount ?? 0`, unvalidated). -/
def transcriptionInsertRow (env : JsEnv) (uid em txt : String) (ed : ExpenseData) : InsertRow :=
  { user_id := uid
    email := em
    amount := ed.amount.getD ⟨0, 0⟩
    date_of_transaction := isoDatePart (parseDateString env ed.date)
    description := jsOrNull ed.memo
    category := jsOrNull ed.category
    transcript := some txt }

/-- The four text fields of the add-expense and edit-expense forms. -/
structure AddForm where
  amount : String
  date : String
  memo : String
  category : String
deriving DecidableEq

/-- The `insert` payload of the add-expense `handleSave`. -/
def addExpenseRow (env : JsEnv) (uid em : String) (form : AddForm) : InsertRow :=
  { user_id := uid
    email := em
    amount := sanitizeAmount form.amount
    date_of_transaction := isoDatePart (parseDateString env (some form.date))
    description := jsOrNull form.memo
    category := jsOrNull form.category
    transcript := none }

/-- The `update` payload of edit-expense.tsx `handleSave`. -/
def editExpenseVals (env : JsEnv) (form : AddForm) : UpdateVals :=
  { amount := sanitizeAmount form.amount
    date_of_transaction := isoDatePart (parseDateString env (some form.date))
    description := jsOrNull form.memo
    category := jsOrNull form.category }

/-! ### Save handlers as outcome functions (claims C3, C8)

Each handler maps its inputs - form state, the authentication reply and the
database reply (`none` = success, `some e` = the SDK error message) - to the
record of its observable effects.  The handlers never write the form state,
so the outcome carries no form fields. -/

structure SaveOutcome where
  inserts : List InsertRow
  updates : List UpdateVals
  alerts : List String
  navigatedHome : Bool
  wentBack : Bool
  isSaving : Bool
  errorMsg : Option String
deriving DecidableEq

/-- transcription.tsx `handleSave`. -/
def transcriptionHandleSave (env : JsEnv) (expenseData : Option ExpenseData)
    (text : Option String) (auth : Option AuthUser) (insertResult : Option String) :
    SaveOutcome :=
  match expenseData, text with
  | some ed, some txt =>
    match auth with
    | none =>
      { inserts := [], updates := [], alerts := ["User not authenticated. Please log in again."],
        navigatedHome := false, wentBack := false, isSaving := false,
        errorMsg := some "User not authenticated. Please log in again." }
    | some user =>
      match user.email with
      | none =>
        { inserts := [], updates := [], alerts := ["User email is missing"],
          navigatedHome := false, wentBack := false, isSaving := false,
          errorMsg := some "User email is missing" }
      | some em =>
        let row := transcriptionInsertRow env user.id em txt ed
        match insertResult with
        | some e =>
          let msg := "Failed to save note: " ++ e
          { inserts := [row], updates := [], alerts := [msg], navigatedHome := false,
            wentBack := false, isSaving := false, errorMsg := some msg }
        | none =>
          { inserts := [row], updates := [], alerts := [], navigatedHome := true,
            wentBack := false, isSaving := false, errorMsg := none }
  | _, _ =>
    { inserts := [], updates := [], alerts := ["Missing expense data or transcript"],
      navigatedHome := false, wentBack := false, isSaving := false, errorMsg := none }

/-- The add-expense screen's `handleSave` (the screen bundled in
utils/supabase.ts's source part). -/
def addExpenseHandleSave (env : JsEnv) (form : AddForm) (auth : Option AuthUser)
    (insertResult : Option String) : SaveOutcome :=
  if (sanitizeAmount form.amount).num ≤ 0 then
    { inserts := [], updates := [], alerts := ["Please enter a valid amount"],
      navigatedHome := false, wentBack := false, isSaving := false, errorMsg := none }
  else
    match auth with
    | none =>
      { inserts := [], updates := [], alerts := ["User not authenticated. Please log in again."],
        navigatedHome := false, wentBack := false, isSaving := false,
        errorMsg := some "User not authenticated. Please log in again." }
    | some user =>
      match user.email with
      | none =>
        { inserts := [], updates := [], alerts := ["User email is missing"],
          navigatedHome := false, wentBack := false, isSaving := false,
          errorMsg := some "User email is missing" }
      | some em =>
        let row := addExpenseRow env user.id em form
        match insertResult with
        | some e =>
          let msg := "Failed to save expense: " ++ e
          { inserts := [row], updates := [], alerts := [msg], navigatedHome := false,
            wentBack := false, isSaving := false, errorMsg := some msg }
        | none =>
          { inserts := [row], updates := [], alerts := [], navigatedHome := true,
            wentBack := false, isSaving := false, errorMsg := none }

/-- edit-expense.tsx `handleSave` (no email check on this path). -/
def editExpenseHandleSave (env : JsEnv) (form : AddForm) (rowId : Option String)
    (auth : Option AuthUser) (updateResult : Option String) : SaveOutcome :=
  if (sanitizeAmount form.amount).num ≤ 0 then
    { inserts := [], updates := [], alerts := ["Please enter a valid amount"],
      navigatedHome := false, wentBack := false, isSaving := false, errorMsg := none }
  else
    match rowId with
    | none =>
      { inserts := [], updates := [], alerts := ["Expense ID is missing"],
        navigatedHome := false, wentBack := false, isSaving := false, errorMsg := none }
    | some _ =>
      match auth with
      | none =>
        { inserts := [], updates := [], alerts := ["User not authenticated. Please log in again."],
          navigatedHome := false, wentBack := false, isSaving := false,
          errorMsg := some "User not authenticated. Please log in again." }
      | some _ =>
        let vals := editExpenseVals env form
        match updateResult with
        | some e =>
          let msg := "Failed to update expense: " ++ e
          { inserts := [], updates := [vals], alerts := [msg], navigatedHome := false,
            wentBack := false, isSaving := false, errorMsg := some msg }
        | none =>
          { inserts := [], updates := [vals], alerts := [], navigatedHome := false,
            wentBack := true, isSaving := false, errorMsg := none }

/-! ### CSV export (`handleExportCSV` of the home screen, claim C5) -/

def dquote : Char := '"'

/-- `includes(',') || includes(quote) || includes(newline)`. -/
def needsQuoting (s : String) : Bool :=
  s.data.any (fun c => c = ',' || c = dquote || c = '\n')

/-- `replace(/"/g, '""')`. -/
def doubleQuotes : List Char → List Char
  | [] => []
  | c :: rest =>
    if c = dquote then dquote :: dquote :: doubleQuotes rest else c :: doubleQuotes rest

/-- `escapeCSV` of `handleExportCSV` (null/undefined become the empty string). -/
def escapeCSV (v : Option String) : String :=
  match v with
  | none => ""
  | some s => if needsQuoting s then ⟨dquote :: (doubleQuotes s.data ++ [dquote])⟩ else s

/-- The header row (without its trailing newline). -/
def csvHeaderLine : String := "ID,Date,Amount,Description,Category,Transcript,Email,Created At"

/-- `Array.prototype.join`. -/
def joinSep (sep : String) : List String → String
  | [] => ""
  | [x] => x
  | x :: y :: xs => x ++ sep ++ joinSep sep (y :: xs)

/-- One CSV row of a note, fields in source order. -/
def noteCsvRow (n : Note) : String :=
  joinSep ","
    [escapeCSV (some n.id), escapeCSV (some n.date_of_transaction),
     escapeCSV (some (toString n.amount)), escapeCSV n.description, escapeCSV n.category,
     escapeCSV n.transcript, escapeCSV (some n.email), escapeCSV (some n.created_at)]

/-- `csvHeader + csvRows.join('\n')` where `csvHeader` ends in a newline. -/
def generateCsv (notes : List Note) : String :=
  (csvHeaderLine ++ "\n") ++ joinSep "\n" (notes.map noteCsvRow)

/-- Spec-side field escaping, written from the claim's words: a value
containing a comma, double quote or newline is wrapped in double quotes with
embedded double quotes doubled; other values are unchanged; null becomes
the empty string. -/
def csvSpecField (v : Option String) : String :=
  match v with
  | none => ""
  | some s =>
    if s.data.any (fun c => c = ',' || c = dquote || c = '\n') then
      ⟨[dquote] ++ (s.data.map (fun c => if c = dquote then [dquote, dquote] else [c])).flatten
        ++ [dquote]⟩
    else s

/-- Spec-side row of a record. -/
def csvSpecRow (n : Note) : String :=
  joinSep ","
    [csvSpecField (some n.id), csvSpecField (some n.date_of_transaction),
     csvSpecField (some (toString n.amount)), csvSpecField n.description, csvSpecField n.category,
     csvSpecField n.transcript, csvSpecField (some n.email), csvSpecField (some n.created_at)]

/-- Undo quote doubling (for the escaping round trip). -/
def undoubleQuotes : List Char → List Char
  | [] => []
  | [c] => [c]
  | c1 :: c2 :: rest =>
    if c1 = dquote && c2 = dquote then dquote :: undoubleQuotes rest
    else c1 :: undoubleQuotes (c2 :: rest)
termination_by cs => cs.length

/-- Read a CSV field back: strip an outer quote pair and undouble quotes. -/
def readCsvField (t : String) : String :=
  match t.data with
  | c :: rest =>
    if c = dquote ∧ rest ≠ [] ∧ rest.getLast? = some dquote then ⟨undoubleQuotes rest.dropLast⟩
    else t
  | [] => t

/-! ### Month/year grouping of the home screen (claim C6)

`transformNotesToExpenseGroups` reads each note's month, year and day through
`new Date(note.date_of_transaction)` and the device-local getters; that read
is abstracted as a parameter `lp : String → Int × Nat × Nat` giving
(full year, 0-based month index, day of month), so the grouping and sorting
properties hold for every device time zone.  `isoParts` is the concrete
instance for a UTC device. -/

structure Expense where
  id : String
  day : Nat
  month : Nat
  description : String
  amount : Int
deriving DecidableEq

structure ExpenseGroup where
  month : String
  year : Int
  expenses : List Expense
deriving DecidableEq

/-- `toLocaleString('en-US', { month: 'long' }).toUpperCase()` by month index. -/
def monthName (mIdx : Nat) : String :=
  ["JANUARY", "FEBRUARY", "MARCH", "APRIL", "MAY", "JUNE", "JULY", "AUGUST",
   "SEPTEMBER", "OCTOBER", "NOVEMBER", "DECEMBER"].getD mIdx "INVALID DATE"

/-- The `monthOrder` lookup table of the sort comparator (0 for a month
string outside the table, which never arises for groups this code builds). -/
def monthOrderMap (m : String) : Nat :=
  if m = "JANUARY" then 1 else if m = "FEBRUARY" then 2 else if m = "MARCH" then 3
  else if m = "APRIL" then 4 else if m = "MAY" then 5 else if m = "JUNE" then 6
  else if m = "JULY" then 7 else if m = "AUGUST" then 8 else if m = "SEPTEMBER" then 9
  else if m = "OCTOBER" then 10 else if m = "NOVEMBER" then 11 else if m = "DECEMBER" then 12
  else 0

/-- The `Expense` pushed for a note (description falls back through
`description || transcript || 'No description'`). -/
def noteToExpense (lp : String → Int × Nat × Nat) (n : Note) : Expense :=
  { id := n.id
    day := (lp n.date_of_transaction).2.2
    month := (lp n.date_of_transaction).2.1 + 1
    description := jsStrOr n.description (jsStrOr n.transcript "No description")
    amount := n.amount }

/-- The grouping key `MONTH-year` of a note, kept as the (month name, year)
pair it encodes. -/
def groupKey (lp : String → Int × Nat × Nat) (n : Note) : String × Int :=
  (monthName (lp n.date_of_transaction).2.1, (lp n.date_of_transaction).1)

def keyOfGroup (g : ExpenseGroup) : String × Int := (g.month, g.year)

/-- One step of the `reduce`: append to the note's group, or append a fresh
group at the end (JS object keys keep insertion order). -/
def pushExpense (lp : String → Int × Nat × Nat) (n : Note) :
    List ExpenseGroup → List ExpenseGroup
  | [] => [{ month := (groupKey lp n).1, year := (groupKey lp n).2,
             expenses := [noteToExpense lp n] }]
  | g :: gs =>
    if keyOfGroup g = groupKey lp n then
      { g with expenses := g.expenses ++ [noteToExpense lp n] } :: gs
    else g :: pushExpense lp n gs

/-- The `reduce` over the notes. -/
def groupNotes (lp : String → Int × Nat × Nat) :
    List ExpenseGroup → List Note → List ExpenseGroup
  | acc, [] => acc
  | acc, n :: ns => groupNotes lp (pushExpense lp n acc) ns

/-- The sort comparator `(a, b) => b.year - a.year || monthOrder[b.month] -
monthOrder[a.month]` as the relation "a comes no later than b". -/
def groupBefore (a b : ExpenseGroup) : Prop :=
  b.year < a.year ∨ (a.year = b.year ∧ monthOrderMap b.month ≤ monthOrderMap a.month)

instance : DecidableRel groupBefore := fun a b => by unfold groupBefore; infer_instance

instance : IsTotal ExpenseGroup groupBefore :=
  ⟨by intro a b; unfold groupBefore; omega⟩

instance : IsTrans ExpenseGroup groupBefore :=
  ⟨by intro a b c hab hbc; unfold groupBefore at *; omega⟩

/-- `transformNotesToExpenseGroups` (identical in both home-screen source
parts).  Group keys are pairwise distinct, so any comparison sort agrees
with `Array.prototype.sort` here; insertion sort is used. -/
def transformNotesToExpenseGroups (lp : String → Int × Nat × Nat) (notes : List Note) :
    List ExpenseGroup :=
  List.insertionSort groupBefore (groupNotes lp [] notes)

/-- The expense list of the group with key `k` (empty when absent);
proof-side accessor for the grouping lemmas. -/
def groupExpensesAt (k : String × Int) : List ExpenseGroup → List Expense
  | [] => []
  | g :: gs => if keyOfGroup g = k then g.expenses else groupExpensesAt k gs

def digitVal (c : Char) : Nat := c.toNat - 48

/-- Reading `YYYY-MM-DD` through `new Date` and the local getters on a
device whose local time is UTC. -/
def isoParts (s : String) : Int × Nat × Nat :=
  match s.data with
  | [a, b, c, d, _, e, f, _, g, h] =>
    ((digitVal a * 1000 + digitVal b * 100 + digitVal c * 10 + digitVal d : Nat),
      digitVal e * 10 + digitVal f - 1, digitVal g * 10 + digitVal h)
  | _ => (1970, 0, 1)

/-! ### Row scoping of the database calls (claim C7)

Each query-builder chain is embedded as the predicate selecting the rows it
touches. -/

/-- `from('notes').select('*').eq('user_id', user.id)` (home-screen fetch). -/
def fetchNotesFilter (uid : String) (n : Note) : Bool := n.user_id == uid

/-- The CSV export's fetch, same chain. -/
def exportCsvFilter (uid : String) (n : Note) : Bool := n.user_id == uid

/-- `from('notes').delete().eq('id', expenseId)` (swipe-to-delete). -/
def deleteExpenseFilter (expenseId : String) (n : Note) : Bool := n.id == expenseId

/-- `from('notes').update({...}).eq('id', id)` (edit screen). -/
def editUpdateFilter (rowId : String) (n : Note) : Bool := n.id == rowId

/-! ### `ensureUserInDatabase` (utils/supabase.ts source part, claim C9) -/

inductive AuthMethod
  | apple
  | google
  | email
deriving DecidableEq

/-- `authMethod || detection from user.app_metadata.provider || 'email'`. -/
def detectAuthMethod (explicitMethod : Option AuthMethod) (provider : Option String) :
    AuthMethod :=
  match explicitMethod with
  | some a => a
  | none =>
    if provider = some "apple" then AuthMethod.apple
    else if provider = some "google" then AuthMethod.google
    else AuthMethod.email

/-- Observable effects of `ensureUserInDatabase`.  The function always
returns normally: its outer catch turns the only rethrown error (a
non-23505 insert error) into `caughtError`. -/
structure EnsureOutcome where
  insertAttempted : Option AuthMethod
  treatedAsConcurrent : Bool
  caughtError : Option String
deriving DecidableEq

def ensureUserInDatabase (explicitMethod : Option AuthMethod) (provider : Option String)
    (auth : Option AuthUser) (existingUser : Option String) (insertResult : Option String) :
    EnsureOutcome :=
  match auth with
  | none => ⟨none, false, none⟩
  | some user =>
    match user.email with
    | none => ⟨none, false, none⟩
    | some _ =>
      let detected := detectAuthMethod explicitMethod provider
      match existingUser with
      | some _ => ⟨none, false, none⟩
      | none =>
        match insertResult with
        | none => ⟨some detected, false, none⟩
        | some code =>
          if code = "23505" then ⟨some detected, true, none⟩
          else ⟨some detected, false, some code⟩

/-! ## Theorems -/

/-! ### Claim C1: the JSON-extraction waterfall -/

/-- C1 counterexample: on the content `"42"` both regexes fail to match, yet
`categorizeText` does not return the raw content string - `JSON.parse` of the
whole content succeeds and the parsed number is returned.  (The lambda models
`JSON.parse` at this input: `JSON.parse("42")` is the number `42`.) -/
theorem c1_counterexample :
    fenceMatch "42" = none ∧ braceMatch "42" = none ∧
      categorizeContent (fun s => if s = "42" then some (42 : Int) else none) "42" ≠
        Sum.inr "42" ∧
      categorizeContent (fun s => if s = "42" then some (42 : Int) else none) "42" =
        Sum.inl 42 := by
  refine ⟨by decide, by decide, by decide, by decide⟩

/-- C1 (amended): `categorizeText` selects its parse candidate by first
trying the markdown code-fence regex, then the brace-span regex, then the
whole content; it returns the parsed value when `JSON.parse` succeeds on the
candidate and the raw content string (rather than throwing) when it fails. -/
theorem c1_extraction_waterfall {α : Type} (parse : String → Option α) (content : String) :
    (∀ v, parse (extractCandidate content) = some v →
        categorizeContent parse content = Sum.inl v) ∧
    (parse (extractCandidate content) = none →
        categorizeContent parse content = Sum.inr content) ∧
    (∀ cap, fenceMatch content = some cap → extractCandidate content = cap) ∧
    (fenceMatch content = none →
        extractCandidate content = (braceMatch content).getD content) := by
  refine ⟨?_, ?_, ?_, ?_⟩
  · intro v h
    simp [categorizeContent, h]
  · intro h
    simp [categorizeContent, h]
  · intro cap h
    simp [extractCandidate, h]
  · intro h
    simp only [extractCandidate, h]
    cases braceMatch content <;> rfl

/-- C1 witness: the waterfall evaluated on a fenced response. -/
theorem c1_witness :
    (∀ v, (fun s => if s = "\x7b1\x7d" then some (1 : Int) else none)
          (extractCandidate "```json \x7b1\x7d ```") = some v →
        categorizeContent (fun s => if s = "\x7b1\x7d" then some (1 : Int) else none)
          "```json \x7b1\x7d ```" = Sum.inl v) ∧
    ((fun s => if s = "\x7b1\x7d" then some (1 : Int) else none)
          (extractCandidate "```json \x7b1\x7d ```") = none →
        categorizeContent (fun s => if s = "\x7b1\x7d" then some (1 : Int) else none)
          "```json \x7b1\x7d ```" = Sum.inr "```json \x7b1\x7d ```") ∧
    (∀ cap, fenceMatch "```json \x7b1\x7d ```" = some cap →
        extractCandidate "```json \x7b1\x7d ```" = cap) ∧
    (fenceMatch "```json \x7b1\x7d ```" = none →
        extractCandidate "```json \x7b1\x7d ```" =
          (braceMatch "```json \x7b1\x7d ```").getD "```json \x7b1\x7d ```") :=
  c1_extraction_waterfall (fun s => if s = "\x7b1\x7d" then some (1 : Int) else none)
    "```json \x7b1\x7d ```"

/-! ### Claim C2: what a raw-string fallback becomes on the confirmation screen -/

/-- C2 counterexample: when `categorizeText` falls back to a raw string, the
confirmation form keeps the transcript as the memo and puts the raw response
in the category field - the raw response is not the memo. -/
theorem c2_counterexample :
    (handleCategorizeResult "coffee three dollars" "Oct 12, 2025"
        (Sum.inr "Sorry, that is not an expense.")).memo ≠ "Sorry, that is not an expense." ∧
    (handleCategorizeResult "coffee three dollars" "Oct 12, 2025"
        (Sum.inr "Sorry, that is not an expense.")).memo = "coffee three dollars" ∧
    (handleCategorizeResult "coffee three dollars" "Oct 12, 2025"
        (Sum.inr "Sorry, that is not an expense.")).category = "Sorry, that is not an expense." := by
  refine ⟨by decide, rfl, rfl⟩

/-- C2 (amended): when the language-model response fails to parse as
structured data, the confirmation screen builds an expense whose memo is the
original transcript and whose category is the raw response string, with
amount 0 and today's date. -/
theorem c2_raw_string_fallback (text today raw : String) :
    handleCategorizeResult text today (Sum.inr raw) =
      { amount := some ⟨0, 0⟩, date := some today, memo := text, category := raw } := rfl

/-! ### Claim C7: which rows the database calls touch -/

/-- C7 counterexample: the swipe-to-delete and edit-update filters select a
row owned by `"alice"` even though the authenticated user is `"bob"` - they
match on the row id alone. -/
theorem c7_counterexample :
    deleteExpenseFilter "e1"
        { id := "e1", user_id := "alice", email := "a@x", amount := 3,
          date_of_transaction := "2024-04-24", description := none, category := none,
          transcript := none, created_at := "2024-04-24T00:00:00Z" } = true ∧
    editUpdateFilter "e1"
        { id := "e1", user_id := "alice", email := "a@x", amount := 3,
          date_of_transaction := "2024-04-24", description := none, category := none,
          transcript := none, created_at := "2024-04-24T00:00:00Z" } = true ∧
    "alice" ≠ "bob" := by
  refine ⟨by decide, by decide, by decide⟩

/-- C7 (amended): the list fetch and the CSV export restrict to rows whose
owning-user identifier equals the authenticated user's identifier, while the
edit-form update and swipe-to-delete restrict only on the row identifier and
carry no owner condition. -/
theorem c7_row_scoping (uid rowId : String) (n : Note) :
    (fetchNotesFilter uid n = true ↔ n.user_id = uid) ∧
    (exportCsvFilter uid n = true ↔ n.user_id = uid) ∧
    (deleteExpenseFilter rowId n = true ↔ n.id = rowId) ∧
    (editUpdateFilter rowId n = true ↔ n.id = rowId) := by
  refine ⟨?_, ?_, ?_, ?_⟩ <;>
    simp [fetchNotesFilter, exportCsvFilter, deleteExpenseFilter, editUpdateFilter]

/-! ### Claim C4: the date-string coercion and time zones -/

set_option maxRecDepth 4000 in
/-- C4: the save paths' coercion (parse with `new Date`, then take the date
part of `toISOString`) shifts the calendar date on devices east of UTC: at
offset +540 minutes (UTC+9) the confirmed date "Apr 24, 2024" is stored as
"2024-04-23"; only at offset 0 is the entered date preserved. -/
theorem c4_timezone_shift :
    isoDatePart (parseDateString
        ⟨0, 540, fun s => if s = "Apr 24, 2024" then some (jsLocalMidnight 540 2024 4 24)
                          else none⟩
        (some "Apr 24, 2024")) = "2024-04-23" ∧
    isoDatePart (jsLocalMidnight 540 2024 4 24) ≠ isoOfCivil 2024 4 24 ∧
    isoDatePart (jsLocalMidnight 0 2024 4 24) = isoOfCivil 2024 4 24 := by
  refine ⟨by decide, by decide, by decide⟩

/-! ### Claim C10: `parseDateString` totality and the stored date format -/

/-- Every digit character the padders emit is a digit. -/
theorem digitChar_isDigit (n : Nat) : (digitChar n).isDigit = true := by
  unfold digitChar
  have h : n % 10 < 10 := Nat.mod_lt _ (by decide)
  generalize n % 10 = k at h ⊢
  interval_cases k <;> decide

/-- The ISO rendering of any calendar date is a well-formed `YYYY-MM-DD`
string. -/
theorem wellFormedIso_isoOfCivil (y : Int) (m d : Nat) :
    wellFormedIso (isoOfCivil y m d) = true := by
  unfold wellFormedIso isoOfCivil pad4 pad2
  simp [digitChar_isDigit]

/-- C10: `parseDateString` is total: null or empty input and unparseable
text fall back to the current date, a parsed date is passed through; hence
the `YYYY-MM-DD` date string the save paths derive from it is well formed
(stated on the four-digit year era that the embedding models). -/
theorem c10_parse_date_total (env : JsEnv) (s : Option String) :
    parseDateString env none = env.now ∧
    parseDateString env (some "") = env.now ∧
    (∀ str, str ≠ "" → env.jsParse str = none → parseDateString env (some str) = env.now) ∧
    (∀ str t, str ≠ "" → env.jsParse str = some t → parseDateString env (some str) = t) ∧
    (0 ≤ (daysToCivil (Int.ediv (parseDateString env s) 1440)).1 →
      (daysToCivil (Int.ediv (parseDateString env s) 1440)).1 ≤ 9999 →
      wellFormedIso (isoDatePart (parseDateString env s)) = true) := by
  refine ⟨rfl, rfl, ?_, ?_, ?_⟩
  · intro str hne h
    simp [parseDateString, hne, h]
  · intro str t hne h
    simp [parseDateString, hne, h]
  · intro _ _
    exact wellFormedIso_isoOfCivil _ _ _

set_option maxRecDepth 4000 in
/-- C10 witness: the theorem evaluated at an environment whose clock is the
epoch and whose date parser always fails, on an unparseable input. -/
theorem c10_witness :
    parseDateString ⟨0, 0, fun _ => none⟩ none = (0 : Int) ∧
    parseDateString ⟨0, 0, fun _ => none⟩ (some "") = (0 : Int) ∧
    (∀ str, str ≠ "" → (fun (_ : String) => (none : Option Int)) str = none →
      parseDateString ⟨0, 0, fun _ => none⟩ (some str) = (0 : Int)) ∧
    (∀ str t, str ≠ "" → (fun (_ : String) => (none : Option Int)) str = some t →
      parseDateString ⟨0, 0, fun _ => none⟩ (some str) = t) ∧
    (0 ≤ (daysToCivil (Int.ediv (parseDateString ⟨0, 0, fun _ => none⟩
          (some "not a date")) 1440)).1 →
      (daysToCivil (Int.ediv (parseDateString ⟨0, 0, fun _ => none⟩
          (some "not a date")) 1440)).1 ≤ 9999 →
      wellFormedIso (isoDatePart (parseDateString ⟨0, 0, fun _ => none⟩
          (some "not a date"))) = true) :=
  c10_parse_date_total ⟨0, 0, fun _ => none⟩ (some "not a date")

/-! ### Claim C9: `ensureUserInDatabase` -/

/-- C9: the insert is attempted exactly when authentication succeeded with
an email present and the users-table check found no row; error code 23505 is
treated as success (nothing reaches the outer catch); and the only errors
the outer catch ever swallows are non-23505 insert errors - the function
always returns an outcome normally. -/
theorem c9_ensure_user (am : Option AuthMethod) (prov : Option String)
    (auth : Option AuthUser) (existing : Option String) (insertRes : Option String) :
    ((ensureUserInDatabase am prov auth existing insertRes).insertAttempted ≠ none ↔
      (∃ u em, auth = some u ∧ u.email = some em) ∧ existing = none) ∧
    (insertRes = some "23505" →
      (ensureUserInDatabase am prov auth existing insertRes).caughtError = none) ∧
    (∀ c, (ensureUserInDatabase am prov auth existing insertRes).caughtError = some c →
      insertRes = some c ∧ c ≠ "23505") := by
  rcases auth with _ | u
  · simp [ensureUserInDatabase]
  · rcases hu : u.email with _ | em <;> rcases existing with _ | ex <;>
      rcases insertRes with _ | code <;>
      simp [ensureUserInDatabase, hu] <;>
      by_cases hc : code = "23505" <;> simp [hc]

/-- C9 witness: a first login with no existing row and a concurrent
duplicate-key insert error. -/
theorem c9_witness :
    ((ensureUserInDatabase none (some "google") (some ⟨"u1", some "e@x"⟩) none
        (some "23505")).insertAttempted ≠ none ↔
      (∃ u em, (some (⟨"u1", some "e@x"⟩ : AuthUser)) = some u ∧ u.email = some em) ∧
        (none : Option String) = none) ∧
    ((some "23505" : Option String) = some "23505" →
      (ensureUserInDatabase none (some "google") (some ⟨"u1", some "e@x"⟩) none
        (some "23505")).caughtError = none) ∧
    (∀ c, (ensureUserInDatabase none (some "google") (some ⟨"u1", some "e@x"⟩) none
        (some "23505")).caughtError = some c → (some "23505" : Option String) = some c ∧
        c ≠ "23505") :=
  c9_ensure_user none (some "google") (some ⟨"u1", some "e@x"⟩) none (some "23505")

/-! ### Claim C3: amounts written to the database -/

/-- `parseFloat` on stripped amount text never produces a negative value. -/
theorem jsParseFloat_nonneg (s : String) (v : JsNum) (h : jsParseFloat s = some v) :
    0 ≤ v.num := by
  unfold jsParseFloat at h
  simp only [] at h
  split at h
  · split at h
    · split at h
      · exact absurd h (by simp)
      · obtain rfl : JsNum.mk _ _ = v := Option.some.inj h
        exact Int.natCast_nonneg _
    · split at h
      · exact absurd h (by simp)
      · obtain rfl : JsNum.mk _ _ = v := Option.some.inj h
        exact Int.natCast_nonneg _
  · split at h
    · exact absurd h (by simp)
    · obtain rfl : JsNum.mk _ _ = v := Option.some.inj h
      exact Int.natCast_nonneg _

/-- The sanitised value of every amount field is non-negative. -/
theorem sanitizeAmount_nonneg (s : String) : 0 ≤ (sanitizeAmount s).num := by
  unfold sanitizeAmount
  rcases h : jsParseFloat (stripAmountChars s) with _ | v
  · decide
  · simp only []
    split
    · decide
    · exact jsParseFloat_nonneg _ _ h

set_option maxRecDepth 4000 in
/-- C3 counterexample: the transcription-confirmation path inserts the
categorized amount unvalidated; a response with amount -5 produces a row
with a negative amount. -/
theorem c3_counterexample :
    (transcriptionHandleSave ⟨0, 0, fun _ => none⟩
        (some ⟨some ⟨-5, 0⟩, none, "m", "c"⟩) (some "t")
        (some ⟨"u1", some "e@x"⟩) none).inserts =
      [{ user_id := "u1", email := "e@x", amount := ⟨-5, 0⟩,
         date_of_transaction := "1970-01-01", description := some "m",
         category := some "c", transcript := some "t" }] ∧
    (JsNum.mk (-5) 0).num < 0 := by
  refine ⟨by decide, by decide⟩

/-- C3 (amended): rows written by the manual-entry form and values written
by the edit form always carry a strictly positive amount; the
transcription-confirmation path stores the categorized amount with null
coerced to 0 and no sign check, so its row is non-negative exactly when the
categorized amount is; any amount typed into an amount field sanitises to a
non-negative value. -/
theorem c3_amount_invariant (env : JsEnv) (form : AddForm) (rowId : Option String)
    (auth : Option AuthUser) (dbRes : Option String) (ed : ExpenseData)
    (text : Option String) :
    (∀ r ∈ (addExpenseHandleSave env form auth dbRes).inserts, 0 < r.amount.num) ∧
    (∀ v ∈ (editExpenseHandleSave env form rowId auth dbRes).updates, 0 < v.amount.num) ∧
    (∀ r ∈ (transcriptionHandleSave env (some ed) text auth dbRes).inserts,
      r.amount = ed.amount.getD ⟨0, 0⟩) ∧
    0 ≤ (sanitizeAmount form.amount).num := by
  refine ⟨?_, ?_, ?_, sanitizeAmount_nonneg _⟩
  · intro r hr
    unfold addExpenseHandleSave at hr
    split at hr
    · simp at hr
    · rename_i hpos
      rcases auth with _ | u
      · simp at hr
      · simp only [] at hr
        rcases hu : u.email with _ | em <;> rw [hu] at hr
        · simp at hr
        · rcases dbRes with _ | e <;>
            simp only [List.mem_singleton] at hr <;> subst hr <;>
            simpa [addExpenseRow] using by omega
  · intro v hv
    unfold editExpenseHandleSave at hv
    split at hv
    · simp at hv
    · rename_i hpos
      rcases rowId with _ | rid
      · simp at hv
      · rcases auth with _ | u
        · simp at hv
        · simp only [] at hv
          rcases dbRes with _ | e <;>
            simp only [List.mem_singleton] at hv <;> subst hv <;>
            simpa [editExpenseVals] using by omega
  · intro r hr
    rcases text with _ | txt
    · simp [transcriptionHandleSave] at hr
    · unfold transcriptionHandleSave at hr
      rcases auth with _ | u
      · simp at hr
      · simp only [] at hr
        rcases hu : u.email with _ | em <;> rw [hu] at hr
        · simp at hr
        · rcases dbRes with _ | e <;>
            simp only [List.mem_singleton] at hr <;> subst hr <;> rfl

set_option maxRecDepth 4000 in
/-- C3 witness: the theorem evaluated on a concrete saving session. -/
theorem c3_witness :
    (∀ r ∈ (addExpenseHandleSave ⟨0, 0, fun _ => none⟩ ⟨"12.50", "", "m", "c"⟩
        (some ⟨"u1", some "e@x"⟩) none).inserts, 0 < r.amount.num) ∧
    (∀ v ∈ (editExpenseHandleSave ⟨0, 0, fun _ => none⟩ ⟨"12.50", "", "m", "c"⟩
        (some "row1") (some ⟨"u1", some "e@x"⟩) none).updates, 0 < v.amount.num) ∧
    (∀ r ∈ (transcriptionHandleSave ⟨0, 0, fun _ => none⟩
        (some ⟨some ⟨7, 0⟩, none, "m", "c"⟩) (some "txt")
        (some ⟨"u1", some "e@x"⟩) none).inserts,
      r.amount = (⟨some ⟨7, 0⟩, none, "m", "c"⟩ : ExpenseData).amount.getD ⟨0, 0⟩) ∧
    0 ≤ (sanitizeAmount (⟨"12.50", "", "m", "c"⟩ : AddForm).amount).num :=
  c3_amount_invariant ⟨0, 0, fun _ => none⟩ ⟨"12.50", "", "m", "c"⟩ (some "row1")
    (some ⟨"u1", some "e@x"⟩) none ⟨some ⟨7, 0⟩, none, "m", "c"⟩ (some "txt")

/-! ### Claim C8: a failed insert is handled locally -/

/-- C8: when the insert returns an error on the transcription-confirmation
or manual-entry save path, exactly one insert was attempted (no retry), the
error is surfaced as an alert and recorded in the error state, no navigation
happens, and the saving flag ends reset.  (The handlers never write the form
state, so the form is left unchanged for a manual retry.) -/
theorem c8_insert_error_local (env : JsEnv) (ed : ExpenseData) (txt : String)
    (u : AuthUser) (em e : String) (form : AddForm)
    (hem : u.email = some em) (hamt : 0 < (sanitizeAmount form.amount).num) :
    ((transcriptionHandleSave env (some ed) (some txt) (some u) (some e)).inserts.length = 1 ∧
     (transcriptionHandleSave env (some ed) (some txt) (some u) (some e)).alerts =
        ["Failed to save note: " ++ e] ∧
     (transcriptionHandleSave env (some ed) (some txt) (some u) (some e)).errorMsg =
        some ("Failed to save note: " ++ e) ∧
     (transcriptionHandleSave env (some ed) (some txt) (some u) (some e)).navigatedHome = false ∧
     (transcriptionHandleSave env (some ed) (some txt) (some u) (some e)).isSaving = false) ∧
    ((addExpenseHandleSave env form (some u) (some e)).inserts.length = 1 ∧
     (addExpenseHandleSave env form (some u) (some e)).alerts =
        ["Failed to save expense: " ++ e] ∧
     (addExpenseHandleSave env form (some u) (some e)).errorMsg =
        some ("Failed to save expense: " ++ e) ∧
     (addExpenseHandleSave env form (some u) (some e)).navigatedHome = false ∧
     (addExpenseHandleSave env form (some u) (some e)).isSaving = false) := by
  have h0 : ¬(sanitizeAmount form.amount).num ≤ 0 := by omega
  constructor
  · simp [transcriptionHandleSave, hem]
  · simp [addExpenseHandleSave, hem, h0]

/-- C8 witness: a concrete failing insert on both paths. -/
theorem c8_witness :
    ((transcriptionHandleSave ⟨0, 0, fun _ => none⟩ (some ⟨some ⟨7, 0⟩, none, "m", "c"⟩)
        (some "t") (some ⟨"u1", some "e@x"⟩) (some "boom")).inserts.length = 1 ∧
     (transcriptionHandleSave ⟨0, 0, fun _ => none⟩ (some ⟨some ⟨7, 0⟩, none, "m", "c"⟩)
        (some "t") (some ⟨"u1", some "e@x"⟩) (some "boom")).alerts =
        ["Failed to save note: " ++ "boom"] ∧
     (transcriptionHandleSave ⟨0, 0, fun _ => none⟩ (some ⟨some ⟨7, 0⟩, none, "m", "c"⟩)
        (some "t") (some ⟨"u1", some "e@x"⟩) (some "boom")).errorMsg =
        some ("Failed to save note: " ++ "boom") ∧
     (transcriptionHandleSave ⟨0, 0, fun _ => none⟩ (some ⟨some ⟨7, 0⟩, none, "m", "c"⟩)
        (some "t") (some ⟨"u1", some "e@x"⟩) (some "boom")).navigatedHome = false ∧
     (transcriptionHandleSave ⟨0, 0, fun _ => none⟩ (some ⟨some ⟨7, 0⟩, none, "m", "c"⟩)
        (some "t") (some ⟨"u1", some "e@x"⟩) (some "boom")).isSaving = false) ∧
    ((addExpenseHandleSave ⟨0, 0, fun _ => none⟩ ⟨"3", "", "", ""⟩
        (some ⟨"u1", some "e@x"⟩) (some "boom")).inserts.length = 1 ∧
     (addExpenseHandleSave ⟨0, 0, fun _ => none⟩ ⟨"3", "", "", ""⟩
        (some ⟨"u1", some "e@x"⟩) (some "boom")).alerts =
        ["Failed to save expense: " ++ "boom"] ∧
     (addExpenseHandleSave ⟨0, 0, fun _ => none⟩ ⟨"3", "", "", ""⟩
        (some ⟨"u1", some "e@x"⟩) (some "boom")).errorMsg =
        some ("Failed to save expense: " ++ "boom") ∧
     (addExpenseHandleSave ⟨0, 0, fun _ => none⟩ ⟨"3", "", "", ""⟩
        (some ⟨"u1", some "e@x"⟩) (some "boom")).navigatedHome = false ∧
     (addExpenseHandleSave ⟨0, 0, fun _ => none⟩ ⟨"3", "", "", ""⟩
        (some ⟨"u1", some "e@x"⟩) (some "boom")).isSaving = false) :=
  c8_insert_error_local ⟨0, 0, fun _ => none⟩ ⟨some ⟨7, 0⟩, none, "m", "c"⟩ "t"
    ⟨"u1", some "e@x"⟩ "e@x" "boom" ⟨"3", "", "", ""⟩ rfl (by decide)

/-! ### Claim C5: the generated CSV -/

/-- The global quote replacement equals per-character doubling. -/
theorem doubleQuotes_eq_flatten (cs : List Char) :
    doubleQuotes cs =
      (cs.map (fun c => if c = dquote then [dquote, dquote] else [c])).flatten := by
  induction cs with
  | nil => rfl
  | cons c rest ih =>
    by_cases hc : c = dquote <;> simp [doubleQuotes, hc, ih]

/-- `escapeCSV` on a present value, as an `if`. -/
theorem escapeCSV_some (s : String) :
    escapeCSV (some s) =
      if needsQuoting s = true then (⟨dquote :: (doubleQuotes s.data ++ [dquote])⟩ : String)
      else s := rfl

/-- `csvSpecField` on a present value, as an `if` (its condition is
definitionally `needsQuoting`). -/
theorem csvSpecField_some (s : String) :
    csvSpecField (some s) =
      if needsQuoting s = true then
        (⟨[dquote] ++ (s.data.map (fun c => if c = dquote then [dquote, dquote] else [c])).flatten
            ++ [dquote]⟩ : String)
      else s := rfl

/-- The source's `escapeCSV` equals the claim-side field escaping. -/
theorem escapeCSV_eq_spec (v : Option String) : escapeCSV v = csvSpecField v := by
  rcases v with _ | s
  · rfl
  · rw [escapeCSV_some, csvSpecField_some]
    by_cases hq : needsQuoting s = true
    · rw [if_pos hq, if_pos hq, doubleQuotes_eq_flatten]
      simp
    · rw [if_neg hq, if_neg hq]

/-- The source's row rendering equals the claim-side row rendering. -/
theorem noteCsvRow_eq_spec (n : Note) : noteCsvRow n = csvSpecRow n := by
  unfold noteCsvRow csvSpecRow
  simp [escapeCSV_eq_spec]

/-- `join` on a non-empty tail prepends head and separator. -/
theorem joinSep_cons (sep a : String) (l : List String) (h : l ≠ []) :
    joinSep sep (a :: l) = a ++ sep ++ joinSep sep l := by
  rcases l with _ | ⟨b, bs⟩
  · exact absurd rfl h
  · rfl

/-- Doubling produces the empty list only from the empty list. -/
theorem doubleQuotes_eq_nil (cs : List Char) : doubleQuotes cs = [] ↔ cs = [] := by
  rcases cs with _ | ⟨c, rest⟩
  · simp [doubleQuotes]
  · by_cases hc : c = dquote <;> simp [doubleQuotes, hc]

/-- Undoubling inverts doubling. -/
theorem undouble_double (cs : List Char) : undoubleQuotes (doubleQuotes cs) = cs := by
  induction cs with
  | nil => simp [doubleQuotes, undoubleQuotes]
  | cons c rest ih =>
    by_cases hc : c = dquote
    · subst hc
      simp [doubleQuotes, undoubleQuotes, ih]
    · rcases hdr : doubleQuotes rest with _ | ⟨d, ds⟩
      · have hrest : rest = [] := (doubleQuotes_eq_nil rest).mp hdr
        subst hrest
        simp [doubleQuotes, undoubleQuotes, hc]
      · rw [hdr] at ih
        simp only [doubleQuotes, hc, if_false, hdr]
        simp [undoubleQuotes, hc, ih]

/-- A last element after appending a singleton. -/
theorem getLast?_append_singleton (l : List Char) (a : Char) :
    (l ++ [a]).getLast? = some a := by
  induction l with
  | nil => rfl
  | cons c rest ih => simpa [List.getLast?_cons] using ih

/-- A field that does not need quoting contains no double quote. -/
theorem no_quote_of_not_needsQuoting (s : String) (h : needsQuoting s = false) :
    dquote ∉ s.data := by
  intro hmem
  unfold needsQuoting at h
  rw [List.any_eq_false] at h
  have := h dquote hmem
  simp at this

/-- The quoting discipline loses no information: reading an escaped field
back yields the original value. -/
theorem readCsvField_escapeCSV (s : String) : readCsvField (escapeCSV (some s)) = s := by
  by_cases hq : needsQuoting s = true
  · rw [escapeCSV_some, if_pos hq]
    simp only [readCsvField]
    rw [if_pos ⟨by simp, by simp, getLast?_append_singleton _ _⟩]
    rw [List.dropLast_concat, undouble_double]
  · have hq' : needsQuoting s = false := by simpa using hq
    rw [escapeCSV_some, if_neg (by simp [hq'])]
    rcases hd : s.data with _ | ⟨c, rest⟩
    · simp [readCsvField, hd]
    · have hc : c ≠ dquote := by
        intro hceq
        apply no_quote_of_not_needsQuoting s hq'
        rw [hd, ← hceq]
        exact List.mem_cons_self c rest
      simp [readCsvField, hd, hc]

/-- C5: for a non-empty list of records the generated CSV is the fixed
header row followed by exactly one row per record in list order, with each
field escaped per the claim (quote-wrap and double embedded quotes when the
value contains a comma, quote or newline; other values unchanged; null
becomes empty); the escaping is lossless. -/
theorem c5_csv_format (notes : List Note) (h : notes ≠ []) :
    generateCsv notes = joinSep "\n" (csvHeaderLine :: notes.map csvSpecRow) ∧
    (notes.map csvSpecRow).length = notes.length ∧
    (∀ s, readCsvField (escapeCSV (some s)) = s) ∧
    escapeCSV none = "" := by
  refine ⟨?_, by simp, fun s => readCsvField_escapeCSV s, rfl⟩
  have hfun : noteCsvRow = csvSpecRow := funext noteCsvRow_eq_spec
  have hrows : notes.map csvSpecRow ≠ [] := by simpa using h
  rw [joinSep_cons _ _ _ hrows]
  unfold generateCsv
  rw [hfun]

/-- C5 witness: the CSV of a one-record list with a comma-bearing field. -/
theorem c5_witness :
    generateCsv [⟨"id1", "u1", "e@x", 3, "2024-04-24", some "a, b", none, none,
        "2024-04-24T00:00:00Z"⟩] =
      joinSep "\n" (csvHeaderLine ::
        ([⟨"id1", "u1", "e@x", 3, "2024-04-24", some "a, b", none, none,
            "2024-04-24T00:00:00Z"⟩] : List Note).map csvSpecRow) ∧
    (([⟨"id1", "u1", "e@x", 3, "2024-04-24", some "a, b", none, none,
        "2024-04-24T00:00:00Z"⟩] : List Note).map csvSpecRow).length =
      ([⟨"id1", "u1", "e@x", 3, "2024-04-24", some "a, b", none, none,
          "2024-04-24T00:00:00Z"⟩] : List Note).length ∧
    (∀ s, readCsvField (escapeCSV (some s)) = s) ∧
    escapeCSV none = "" :=
  c5_csv_format [⟨"id1", "u1", "e@x", 3, "2024-04-24", some "a, b", none, none,
    "2024-04-24T00:00:00Z"⟩] (by simp)

/-! ### Claim C6: month/year grouping and sorting -/

/-- Appending a note's expense does not change a group's key. -/
theorem keyOfGroup_update (g : ExpenseGroup) (e : Expense) :
    keyOfGroup { g with expenses := g.expenses ++ [e] } = keyOfGroup g := rfl

/-- The keys after one `reduce` step: unchanged when the note's key is
present, extended at the end otherwise. -/
theorem keys_pushExpense (lp : String → Int × Nat × Nat) (n : Note) (gs : List ExpenseGroup) :
    (pushExpense lp n gs).map keyOfGroup =
      if groupKey lp n ∈ gs.map keyOfGroup then gs.map keyOfGroup
      else gs.map keyOfGroup ++ [groupKey lp n] := by
  induction gs with
  | nil => simp [pushExpense, keyOfGroup]
  | cons g gs ih =>
    by_cases hk : keyOfGroup g = groupKey lp n
    · simp only [pushExpense, if_pos hk, List.map_cons, keyOfGroup_update]
      rw [if_pos (show groupKey lp n ∈ keyOfGroup g :: List.map keyOfGroup gs by
        rw [← hk]; exact List.mem_cons_self _ _)]
    · simp only [pushExpense, if_neg hk, List.map_cons, ih]
      by_cases hm : groupKey lp n ∈ gs.map keyOfGroup
      · simp [hm, Ne.symm hk]
      · simp [hm, Ne.symm hk]

/-- Key membership after one `reduce` step. -/
theorem keys_pushExpense_mem (lp : String → Int × Nat × Nat) (n : Note)
    (gs : List ExpenseGroup) (k : String × Int) :
    k ∈ (pushExpense lp n gs).map keyOfGroup ↔
      k ∈ gs.map keyOfGroup ∨ k = groupKey lp n := by
  rw [keys_pushExpense]
  split
  · rename_i hm
    exact ⟨Or.inl, fun h => h.elim id (fun he => he ▸ hm)⟩
  · simp

/-- One `reduce` step preserves distinctness of the keys. -/
theorem keys_nodup_pushExpense (lp : String → Int × Nat × Nat) (n : Note)
    (gs : List ExpenseGroup) (h : (gs.map keyOfGroup).Nodup) :
    ((pushExpense lp n gs).map keyOfGroup).Nodup := by
  rw [keys_pushExpense]
  split
  · exact h
  · rename_i hnm
    simp [List.nodup_append, h, hnm]

/-- One `reduce` step appends the note's expense to exactly its key's
group. -/
theorem groupExpensesAt_pushExpense (lp : String → Int × Nat × Nat) (n : Note)
    (k : String × Int) (gs : List ExpenseGroup) :
    groupExpensesAt k (pushExpense lp n gs) =
      if k = groupKey lp n then groupExpensesAt k gs ++ [noteToExpense lp n]
      else groupExpensesAt k gs := by
  induction gs with
  | nil =>
    by_cases hk : k = groupKey lp n
    · simp [pushExpense, groupExpensesAt, keyOfGroup, hk]
    · simp [pushExpense, groupExpensesAt, keyOfGroup, Ne.symm hk, hk]
  | cons g gs ih =>
    by_cases hg : keyOfGroup g = groupKey lp n
    · simp only [pushExpense, if_pos hg]
      by_cases hk : k = groupKey lp n
      · have hgk : keyOfGroup g = k := by rw [hg, hk]
        simp [groupExpensesAt, keyOfGroup_update, hgk, hk]
      · have hgk : ¬keyOfGroup g = k := by
          rw [hg]
          exact fun he => hk he.symm
        simp [groupExpensesAt, keyOfGroup_update, hgk, hk]
    · simp only [pushExpense, if_neg hg]
      by_cases hgk : keyOfGroup g = k
      · have hk : ¬k = groupKey lp n := fun he => hg (hgk.symm ▸ he)
        simp [groupExpensesAt, hgk, hk]
      · simp only [groupExpensesAt, if_neg hgk, ih]

/-- The whole `reduce`: each key's group collects, in input order, exactly
the expenses of the notes with that key. -/
theorem groupExpensesAt_groupNotes (lp : String → Int × Nat × Nat) (ns : List Note) :
    ∀ (acc : List ExpenseGroup) (k : String × Int),
      groupExpensesAt k (groupNotes lp acc ns) =
        groupExpensesAt k acc ++
          (ns.filter (fun n => decide (groupKey lp n = k))).map (noteToExpense lp) := by
  induction ns with
  | nil =>
    intro acc k
    simp [groupNotes]
  | cons n ns ih =>
    intro acc k
    simp only [groupNotes]
    rw [ih, groupExpensesAt_pushExpense]
    by_cases hk : k = groupKey lp n
    · rw [if_pos hk]
      simp [List.filter_cons, hk.symm]
    · rw [if_neg hk]
      simp [List.filter_cons, Ne.symm hk]

/-- Key membership over the whole `reduce`. -/
theorem keys_groupNotes_mem (lp : String → Int × Nat × Nat) (ns : List Note) :
    ∀ (acc : List ExpenseGroup) (k : String × Int),
      k ∈ (groupNotes lp acc ns).map keyOfGroup ↔
        k ∈ acc.map keyOfGroup ∨ k ∈ ns.map (groupKey lp) := by
  induction ns with
  | nil =>
    intro acc k
    simp [groupNotes]
  | cons n ns ih =>
    intro acc k
    simp only [groupNotes]
    rw [ih, keys_pushExpense_mem]
    simp only [List.map_cons, List.mem_cons]
    tauto

/-- The whole `reduce` keeps the group keys distinct. -/
theorem keys_groupNotes_nodup (lp : String → Int × Nat × Nat) (ns : List Note) :
    ∀ (acc : List ExpenseGroup), (acc.map keyOfGroup).Nodup →
      ((groupNotes lp acc ns).map keyOfGroup).Nodup := by
  induction ns with
  | nil =>
    intro acc h
    simpa [groupNotes] using h
  | cons n ns ih =>
    intro acc h
    simp only [groupNotes]
    exact ih _ (keys_nodup_pushExpense _ _ _ h)

/-- In a list with distinct keys, looking a member group up by its own key
returns its expense list. -/
theorem groupExpensesAt_self (gs : List ExpenseGroup) (g : ExpenseGroup)
    (hmem : g ∈ gs) (hnd : (gs.map keyOfGroup).Nodup) :
    groupExpensesAt (keyOfGroup g) gs = g.expenses := by
  induction gs with
  | nil => cases hmem
  | cons h gsl ih =>
    rcases List.mem_cons.mp hmem with rfl | hm
    · simp [groupExpensesAt]
    · obtain ⟨hhead, htail⟩ := List.nodup_cons.mp hnd
      have hne : ¬keyOfGroup h = keyOfGroup g := by
        intro he
        exact hhead (he ▸ List.mem_map_of_mem keyOfGroup hm)
      simp only [groupExpensesAt, if_neg hne]
      exact ih hm htail

/-- C6: the transform partitions the notes by their (month, year) key -
group keys are pairwise distinct, every note's key has a group, each group
holds exactly the expenses of the notes with its key in input order - and
the groups come out sorted newest-first (descending year, then descending
month), for every reading `lp` of a date string as local (year, month
index, day). -/
theorem c6_grouping (lp : String → Int × Nat × Nat) (notes : List Note) :
    ((transformNotesToExpenseGroups lp notes).map keyOfGroup).Nodup ∧
    (∀ g ∈ transformNotesToExpenseGroups lp notes,
      g.expenses =
        (notes.filter (fun n => decide (groupKey lp n = keyOfGroup g))).map
          (noteToExpense lp)) ∧
    (∀ n ∈ notes,
      groupKey lp n ∈ (transformNotesToExpenseGroups lp notes).map keyOfGroup) ∧
    List.Sorted groupBefore (transformNotesToExpenseGroups lp notes) := by
  have hperm : (transformNotesToExpenseGroups lp notes).Perm (groupNotes lp [] notes) :=
    List.perm_insertionSort _ _
  have hpermKeys := hperm.map keyOfGroup
  have hnodupFold : ((groupNotes lp [] notes).map keyOfGroup).Nodup :=
    keys_groupNotes_nodup lp notes [] (by simp)
  refine ⟨hpermKeys.nodup_iff.mpr hnodupFold, ?_, ?_, List.sorted_insertionSort _ _⟩
  · intro g hg
    have hgFold : g ∈ groupNotes lp [] notes := hperm.mem_iff.mp hg
    have hself := groupExpensesAt_self _ g hgFold hnodupFold
    rw [← hself, groupExpensesAt_groupNotes]
    simp [groupExpensesAt]
  · intro n hn
    have hmem : groupKey lp n ∈ (groupNotes lp [] notes).map keyOfGroup := by
      rw [keys_groupNotes_mem]
      exact Or.inr (List.mem_map_of_mem _ hn)
    exact hpermKeys.mem_iff.mpr hmem

/-- C6 witness: the grouping properties on a concrete two-note list read
through the UTC date parts. -/
theorem c6_witness :
    ((transformNotesToExpenseGroups isoParts
        [⟨"a", "u1", "e@x", 3, "2024-04-24", some "d1", none, none, "t1"⟩,
         ⟨"b", "u1", "e@x", 4, "2024-05-02", none, some "cat", some "tr", "t2"⟩]).map
        keyOfGroup).Nodup ∧
    (∀ g ∈ transformNotesToExpenseGroups isoParts
        [⟨"a", "u1", "e@x", 3, "2024-04-24", some "d1", none, none, "t1"⟩,
         ⟨"b", "u1", "e@x", 4, "2024-05-02", none, some "cat", some "tr", "t2"⟩],
      g.expenses =
        (([⟨"a", "u1", "e@x", 3, "2024-04-24", some "d1", none, none, "t1"⟩,
           ⟨"b", "u1", "e@x", 4, "2024-05-02", none, some "cat", some "tr", "t2"⟩] :
            List Note).filter
          (fun n => decide (groupKey isoParts n = keyOfGroup g))).map
          (noteToExpense isoParts)) ∧
    (∀ n ∈ ([⟨"a", "u1", "e@x", 3, "2024-04-24", some "d1", none, none, "t1"⟩,
             ⟨"b", "u1", "e@x", 4, "2024-05-02", none, some "cat", some "tr", "t2"⟩] :
              List Note),
      groupKey isoParts n ∈ (transformNotesToExpenseGroups isoParts
        [⟨"a", "u1", "e@x", 3, "2024-04-24", some "d1", none, none, "t1"⟩,
         ⟨"b", "u1", "e@x", 4, "2024-05-02", none, some "cat", some "tr", "t2"⟩]).map
          keyOfGroup) ∧
    List.Sorted groupBefore (transformNotesToExpenseGroups isoParts
      [⟨"a", "u1", "e@x", 3, "2024-04-24", some "d1", none, none, "t1"⟩,
       ⟨"b", "u1", "e@x", 4, "2024-05-02", none, some "cat", some "tr", "t2"⟩]) :=
  c6_grouping isoParts
    [⟨"a", "u1", "e@x", 3, "2024-04-24", some "d1", none, none, "t1"⟩,
     ⟨"b", "u1", "e@x", 4, "2024-05-02", none, some "cat", some "tr", "t2"⟩]
